/-
Verification of the supply-chain digital-twin optimization engine.

Shallow embedding of the LP model builder, solution extractor,
derived-metrics builder (src/optimization.py, src/model/optimization.py,
src/analytics.py) and the scenario mutator (src/scenarios.py,
src/model/run_pipeline.py).  All numeric quantities are embedded as exact
rationals; pandas/numpy float semantics that matter (NaN from 0/0, the
missing-column KeyError on an empty DataFrame) are modelled explicitly
with Option/Except.
-/
import Mathlib

/-! ## Data model (input tables) -/

/-- One row of the store table (`stores_clean.csv`). -/
structure Store where
  store_id : String
  weekly_demand : ℚ
  region : String
deriving Repr, DecidableEq

/-- One row of the DC table (`dcs_clean.csv`). -/
structure DC where
  dc_id : String
  weekly_capacity : ℚ
deriving Repr, DecidableEq

/-- One row of the transport/lane table (`transport_clean.csv`). -/
structure Lane where
  dc_id : String
  store_id : String
  cost_per_unit_usd : ℚ
  service_time_days : ℚ
deriving Repr, DecidableEq

/-! ## Python dict semantics

`pyDict` models a Python dict comprehension built by inserting the pairs of a
list in order: a later binding of the same key overwrites an earlier one
(last-wins), lookup of an absent key gives `none`. -/

/-- Last-wins association lookup, the semantics of a Python dict built from a
list of key/value pairs. -/
def pyDict {α : Type} (l : List (String × α)) : String → Option α :=
  l.foldl (fun m kv => fun q => if q = kv.1 then some kv.2 else m q) (fun _ => none)

/-! ## Flow Model Builder (src/optimization.py, `run`, lines 17-55)

The builder lays out the decision vector as the `n_ship` shipment variables
(one per transport row, in table order) followed by one unmet-demand variable
per store.  `A_eq_entry`/`b_eq` and `A_ub_entry`/`b_ub` are the closed forms
of the matrices the code assembles with its two loops; the top-level variant
guards each coefficient write with a dict-membership test (`if st in
store_index`, `if dc in dc_index`), so an unresolvable id simply leaves the
zero that `np.zeros` initialised. -/

def storeIds (stores : List Store) : List String := stores.map (·.store_id)

def dcIds (dcs : List DC) : List String := dcs.map (·.dc_id)

/-- `demand = stores.set_index("store_id")["weekly_demand"].to_dict()`. -/
def demandDict (stores : List Store) : String → Option ℚ :=
  pyDict (stores.map (fun s => (s.store_id, s.weekly_demand)))

/-- `capacity = dcs.set_index("dc_id")["weekly_capacity"].to_dict()`. -/
def capacityDict (dcs : List DC) : String → Option ℚ :=
  pyDict (dcs.map (fun d => (d.dc_id, d.weekly_capacity)))

/-- `pairs = list(zip(transport["dc_id"], transport["store_id"]))`. -/
def lanePairs (transport : List Lane) : List (String × String) :=
  transport.map (fun l => (l.dc_id, l.store_id))

/-- `{s: k for k, s in enumerate(l)}`: id → position, last occurrence wins. -/
def idxD (l : List String) : String → Option ℕ :=
  pyDict (l.enum.map (fun p => (p.2, p.1)))

/-- `store_index = {s: k for k, s in enumerate(store_ids)}`. -/
def storeIndexD (stores : List Store) : String → Option ℕ :=
  idxD (storeIds stores)

/-- `dc_index = {i: k for k, i in enumerate(dc_ids)}`. -/
def dcIndexD (dcs : List DC) : String → Option ℕ :=
  idxD (dcIds dcs)

/-- Entry `A_eq[j, k]` of the demand-balance matrix: 1 when column `k` is a
shipment variable whose lane's store resolves to row `j`, 1 when `k` is row
`j`'s own unmet variable, 0 otherwise. -/
def A_eq_entry (stores : List Store) (transport : List Lane) (j k : ℕ) : ℚ :=
  let ps := lanePairs transport
  if k < ps.length then
    match ps.get? k with
    | some p => if storeIndexD stores p.2 = some j then 1 else 0
    | none => 0
  else if k = ps.length + j then 1 else 0

/-- Right-hand side `b_eq[j] = demand[store_ids[j]]`. -/
def b_eq (stores : List Store) (j : ℕ) : ℚ :=
  (((storeIds stores).get? j).bind (demandDict stores)).getD 0

/-- Entry `A_ub[i, k]` of the capacity matrix: 1 when column `k` is a shipment
variable whose lane's DC resolves to row `i`; unmet columns are never touched. -/
def A_ub_entry (dcs : List DC) (transport : List Lane) (i k : ℕ) : ℚ :=
  let ps := lanePairs transport
  if k < ps.length then
    match ps.get? k with
    | some p => if dcIndexD dcs p.1 = some i then 1 else 0
    | none => 0
  else 0

/-- Right-hand side `b_ub`: the loop `for i, k in dc_index.items(): b_ub[k] =
capacity[i]` writes only at indices that survive in `dc_index`, so a row of a
duplicated id that is not the dict's surviving index keeps its initial 0. -/
def b_ub (dcs : List DC) (i : ℕ) : ℚ :=
  match (dcIds dcs).get? i with
  | some d => if dcIndexD dcs d = some i then (capacityDict dcs d).getD 0 else 0
  | none => 0

def nVars (stores : List Store) (transport : List Lane) : ℕ :=
  (lanePairs transport).length + (storeIds stores).length

/-- Dot product of one constraint row with the decision vector. -/
def dotRow (row : ℕ → ℚ) (v : ℕ → ℚ) (n : ℕ) : ℚ :=
  (Finset.range n).sum (fun k => row k * v k)

/-- The vector satisfies every demand-balance equality `A_eq v = b_eq`. -/
def EqFeasible (stores : List Store) (transport : List Lane) (v : ℕ → ℚ) : Prop :=
  ∀ j, j < (storeIds stores).length →
    dotRow (A_eq_entry stores transport j) v (nVars stores transport) = b_eq stores j

/-- The vector satisfies every capacity inequality `A_ub v ≤ b_ub`. -/
def UbFeasible (dcs : List DC) (stores : List Store) (transport : List Lane)
    (v : ℕ → ℚ) : Prop :=
  ∀ i, i < (dcIds dcs).length →
    dotRow (A_ub_entry dcs transport i) v (nVars stores transport) ≤ b_ub dcs i

/-- The vector respects the `bounds = [(0, None)] * n` lower bounds. -/
def NonnegBounds (stores : List Store) (transport : List Lane) (v : ℕ → ℚ) : Prop :=
  ∀ k, k < nVars stores transport → 0 ≤ v k

/-! ## Solution Extractor (src/optimization.py, `run`, lines 64-84)

`res.x` is the solver's raw vector; the extractor takes the first `n_ship`
entries as shipments and the rest as unmet demand.  A shipment becomes a Flow
row only when it strictly exceeds the `1e-6` noise tolerance. -/

/-- The `1e-6` zero tolerance. -/
def TOL : ℚ := 1 / 1000000

/-- A Flow record as first appended to the `flows` list (before the
`flow_cost_usd` column exists). -/
structure FlowEntry where
  dc_id : String
  store_id : String
  units_assigned : ℚ
  cost_per_unit_usd : ℚ
deriving Repr, DecidableEq

/-- A row of the persisted `optimal_flows.csv` (with `flow_cost_usd`). -/
structure FlowRow where
  dc_id : String
  store_id : String
  units_assigned : ℚ
  cost_per_unit_usd : ℚ
  flow_cost_usd : ℚ
deriving Repr, DecidableEq

/-- A row of `unmet_demand.csv`. -/
structure UnmetRow where
  store_id : String
  unmet_units : ℚ
deriving Repr, DecidableEq

/-- The loop `for idx, (dc, st) in enumerate(pairs): qty = x[idx]; if qty >
1e-6: flows.append(...)`, with the unit cost read back from the same
transport row. -/
def extractFlows (transport : List Lane) (x : ℕ → ℚ) : List FlowEntry :=
  transport.enum.filterMap (fun p =>
    if x p.1 > TOL then
      some ⟨p.2.dc_id, p.2.store_id, x p.1, p.2.cost_per_unit_usd⟩
    else none)

/-- `flows_df["flow_cost_usd"] = flows_df["units_assigned"] *
flows_df["cost_per_unit_usd"]`.  pandas semantics: `pd.DataFrame([])` built
from an empty record list has no columns at all, so selecting
`"units_assigned"` on it raises `KeyError` — the assignment only succeeds on a
non-empty flows list. -/
def addFlowCost (flows : List FlowEntry) : Except String (List FlowRow) :=
  if flows.isEmpty then Except.error "KeyError: units_assigned"
  else Except.ok (flows.map (fun f =>
    ⟨f.dc_id, f.store_id, f.units_assigned, f.cost_per_unit_usd,
      f.units_assigned * f.cost_per_unit_usd⟩))

/-- `unmet_df = pd.DataFrame({"store_id": store_ids, "unmet_units": u})` —
one row per store, unconditionally, in store-table order. -/
def unmetTable (stores : List Store) (u : ℕ → ℚ) : List UnmetRow :=
  (storeIds stores).enum.map (fun p => ⟨p.2, u p.1⟩)

/-! ## Derived-Metrics Builder (src/optimization.py lines 86-106, src/analytics.py) -/

/-- pandas float division: `a / 0` is `inf` or `NaN` (for `0 / 0`), neither a
real number; both are modelled as `none`. -/
def pdDiv (a b : ℚ) : Option ℚ := if b = 0 then none else some (a / b)

/-- Round-half-to-even at integer precision, the rounding used by
numpy/pandas `.round` and Python `round`. -/
def roundHalfEven (q : ℚ) : ℤ :=
  let f := ⌊q⌋
  if q - f < 1/2 then f
  else if q - f > 1/2 then f + 1
  else if f % 2 = 0 then f else f + 1

/-- `.round(2)`: round to 2 decimal places, ties to even. -/
def round2 (q : ℚ) : ℚ := (roundHalfEven (q * 100) : ℚ) / 100

/-- A row of `dc_utilization.csv`.  `utilization_pct` is `none` when the float
division produced `NaN`/`inf` (zero capacity). -/
structure UtilRow where
  dc_id : String
  weekly_capacity : ℚ
  units_assigned : ℚ
  utilization_pct : Option ℚ
deriving Repr, DecidableEq

/-- `flows_df.groupby("dc_id")["units_assigned"].sum()` merged left onto the
DC table with `fillna(0)`, then `utilization_pct = (units / capacity *
100).round(2)`. -/
def utilTable (dcs : List DC) (flows : List FlowRow) : List UtilRow :=
  dcs.map (fun d =>
    let assigned := ((flows.filter (fun f => f.dc_id == d.dc_id)).map
      (·.units_assigned)).sum
    { dc_id := d.dc_id
      weekly_capacity := d.weekly_capacity
      units_assigned := assigned
      utilization_pct := (pdDiv assigned d.weekly_capacity).map
        (fun q => round2 (q * 100)) })

/-- `UNMET_PENALTY = 10.0`. -/
def UNMET_PENALTY : ℚ := 10

/-- The `kpi_summary.csv` rows, as named fields. -/
structure KPITable where
  total_transport_cost_usd : ℚ
  unmet_penalty_usd : ℚ
  total_cost_with_penalty_usd : ℚ
  total_units : ℚ
  num_dcs : ℕ
  num_stores : ℕ
  lp_status : String
deriving Repr, DecidableEq

/-- `sum(demand.values())`: the dict keeps one value per distinct store id
(last-wins), iterated in first-occurrence key order. -/
def totalUnits (stores : List Store) : ℚ :=
  (((storeIds stores).dedup).map (fun s => (demandDict stores s).getD 0)).sum

/-- The KPI block of `run` (lines 93-105). -/
def kpiTable (stores : List Store) (dcs : List DC) (flows : List FlowRow)
    (unmet : List UnmetRow) : KPITable :=
  let transportCost := (flows.map (·.flow_cost_usd)).sum
  let penaltyCost := (unmet.map (fun r => r.unmet_units * UNMET_PENALTY)).sum
  { total_transport_cost_usd := round2 transportCost
    unmet_penalty_usd := round2 penaltyCost
    total_cost_with_penalty_usd := round2 (transportCost + penaltyCost)
    total_units := totalUnits stores
    num_dcs := (dcIds dcs).length
    num_stores := (storeIds stores).length
    lp_status := "optimal" }

/-! ## The solve run as a state transformer over the results directory

`linprog` is an external library; its result is an oracle parameter.  The
four `to_csv` writes happen in program order; a raised exception (solver
failure, or the empty-flows `KeyError`) aborts the run before any further
write. -/

/-- The fields of `scipy.optimize.linprog`'s result that `run` consults. -/
structure SolverResult where
  success : Bool
  message : String
  x : ℕ → ℚ

/-- The four output files of one solve, each `none` until written. -/
structure FileState where
  optimal_flows : Option (List FlowRow)
  unmet_demand : Option (List UnmetRow)
  dc_utilization : Option (List UtilRow)
  kpi_summary : Option KPITable
deriving DecidableEq

/-- `run` from after the `linprog` call: raise on failure, extract, then the
four writes in file order.  Returns the updated results directory and the
error message of a raised exception, if any. -/
def runWrite (fs : FileState) (stores : List Store) (dcs : List DC)
    (transport : List Lane) (res : SolverResult) : FileState × Option String :=
  if !res.success then
    (fs, some ("LP solve failed: " ++ res.message))
  else
    let x := res.x
    let u := fun j => res.x ((lanePairs transport).length + j)
    let flows := extractFlows transport x
    match addFlowCost flows with
    | Except.error e => (fs, some e)
    | Except.ok flowRows =>
      let unmet := unmetTable stores u
      let kpi := kpiTable stores dcs flowRows unmet
      let fs1 := { fs with optimal_flows := some flowRows }
      let fs2 := { fs1 with unmet_demand := some unmet }
      let fs3 := { fs2 with dc_utilization := some (utilTable dcs flowRows) }
      let fs4 := { fs3 with kpi_summary := some kpi }
      (fs4, none)

/-! ## Slow-lane analytics (src/analytics.py, `run`, lines 26-35) -/

/-- `flows.merge(transport[["dc_id","store_id","service_time_days"]],
on=["dc_id","store_id"], how="left")`: each flow row is joined with every
matching transport row; an unmatched flow keeps one row whose
`service_time_days` is `NaN` (`none`). -/
def flowsServ (flows : List FlowRow) (transport : List Lane) :
    List (FlowRow × Option ℚ) :=
  flows.flatMap (fun f =>
    let ms := transport.filter (fun l =>
      l.dc_id == f.dc_id && l.store_id == f.store_id)
    if ms.isEmpty then [(f, none)]
    else ms.map (fun l => (f, some l.service_time_days)))

/-- `slow = flows_serv.loc[flows_serv["service_time_days"] > 2.0]`;
`NaN > 2.0` is `False`, so an unmatched flow is never slow. -/
def slowDetail (flows : List FlowRow) (transport : List Lane) :
    List (FlowRow × Option ℚ) :=
  (flowsServ flows transport).filter (fun p =>
    match p.2 with
    | some t => decide (t > 2)
    | none => false)

/-- The single `slow_lanes_kpis.csv` row:
count, total units on slow lanes, and their percentage of all shipped units
with the denominator floored at 1. -/
structure SlowKpis where
  slow_lanes_count : ℕ
  units_on_slow_lanes : ℚ
  pct_units_on_slow_lanes : ℚ
deriving Repr, DecidableEq

def slowKpis (flows : List FlowRow) (transport : List Lane) : SlowKpis :=
  let slow := slowDetail flows transport
  let slowUnits := (slow.map (fun p => p.1.units_assigned)).sum
  let allUnits := (flows.map (·.units_assigned)).sum
  { slow_lanes_count := slow.length
    units_on_slow_lanes := slowUnits
    pct_units_on_slow_lanes := 100 * slowUnits / max allUnits 1 }

/-- The transit time of a flow's lane: the first matching transport row
(unique when lane keys are duplicate-free). -/
def laneTime (transport : List Lane) (f : FlowRow) : Option ℚ :=
  ((transport.filter (fun l =>
    l.dc_id == f.dc_id && l.store_id == f.store_id)).head?).map
      (·.service_time_days)

/-! ## Scenario Mutator (src/scenarios.py `apply_scenario`,
src/model/run_pipeline.py `run_scenario` — identical lever loops) -/

/-- A scenario configuration: the two sparse lever mappings, as the ordered
key/value pairs of the Python dicts (dict keys are pairwise distinct). -/
structure ScenarioCfg where
  dc_capacity_mult : List (String × ℚ)
  region_demand_mult : List (String × ℚ)
deriving Repr, DecidableEq

/-- `for dc_id, mult in cfg.get("dc_capacity_mult", {}).items():
dcs.loc[dcs["dc_id"] == dc_id, "weekly_capacity"] *= float(mult)`. -/
def applyCapacityLevers (levers : List (String × ℚ)) (dcs : List DC) : List DC :=
  levers.foldl (fun acc p =>
    acc.map (fun d =>
      if d.dc_id == p.1 then { d with weekly_capacity := d.weekly_capacity * p.2 }
      else d)) dcs

/-- `for region, mult in cfg.get("region_demand_mult", {}).items():
stores.loc[stores["region"] == region, "weekly_demand"] *= float(mult)`. -/
def applyDemandLevers (levers : List (String × ℚ)) (stores : List Store) :
    List Store :=
  levers.foldl (fun acc p =>
    acc.map (fun s =>
      if s.region == p.1 then { s with weekly_demand := s.weekly_demand * p.2 }
      else s)) stores

/-- `apply_scenario(cfg)`: mutate the persisted DC and store tables in place. -/
def applyScenario (cfg : ScenarioCfg) (dcs : List DC) (stores : List Store) :
    List DC × List Store :=
  (applyCapacityLevers cfg.dc_capacity_mult dcs,
   applyDemandLevers cfg.region_demand_mult stores)

/-- The same configuration with every multiplier squared. -/
def squareCfg (cfg : ScenarioCfg) : ScenarioCfg :=
  { dc_capacity_mult := cfg.dc_capacity_mult.map (fun p => (p.1, p.2 * p.2))
    region_demand_mult := cfg.region_demand_mult.map (fun p => (p.1, p.2 * p.2)) }

/-- Product of the multipliers of all levers naming a given key. -/
def multProd (levers : List (String × ℚ)) (key : String) : ℚ :=
  ((levers.filter (fun p => p.1 == key)).map (·.2)).prod

/-! ## The model/ variant's unguarded build (src/model/optimization.py,
`run`, lines 26-38)

That variant writes `A_eq[s_idx[st], j] = 1.0` and `A_ub[d_idx[dc], j] = 1.0`
without a membership guard: a lane naming an unknown store or DC raises
`KeyError` while the matrices are being assembled. -/

/-- The first id of the list that misses in the dict — the id whose lookup
raises the `KeyError`. -/
def firstMissing (keys : String → Option ℕ) (ids : List String) : Option String :=
  match ids with
  | [] => none
  | a :: rest =>
    match keys a with
    | some _ => firstMissing keys rest
    | none => some a

/-- Walk the pairs in order the way the two loops of the model/ variant do,
stopping at the first dict miss with the `KeyError` it raises. -/
def buildStrictCheck (stores : List Store) (dcs : List DC)
    (transport : List Lane) : Except String Unit :=
  match firstMissing (storeIndexD stores) ((lanePairs transport).map Prod.snd) with
  | some sid => Except.error ("KeyError: " ++ sid)
  | none =>
    match firstMissing (dcIndexD dcs) ((lanePairs transport).map Prod.fst) with
    | some did => Except.error ("KeyError: " ++ did)
    | none => Except.ok ()

/-- The spec-side independent recomputation of the headline total from the
persisted tables: the sum of all flow costs plus unmet units times the
penalty (stated from the spec's words, to be compared with the pipeline's
KPI). -/
def recomputedTotal (flows : List FlowRow) (unmet : List UnmetRow) : ℚ :=
  (flows.map (·.flow_cost_usd)).sum
    + (unmet.map (fun r => r.unmet_units * UNMET_PENALTY)).sum

/-! ## Concrete fixtures used to exercise the theorems -/

def wStores : List Store := [⟨"S1", 5, "Southeast"⟩]

def wDcs : List DC := [⟨"D1", 10⟩]

def wTransport : List Lane := [⟨"D1", "S1", 1, 1⟩]

/-- A feasible solution for the fixture: ship all 5 units on the one lane. -/
def wVec : ℕ → ℚ := fun k => if k = 0 then 5 else 0

/-- Degenerate input for C2: no lanes at all. -/
def c2Transport : List Lane := []

/-- All-unmet solution for the zero-lane input: the single unmet variable
carries the whole demand. -/
def c2Vec : ℕ → ℚ := fun _ => 5

/-- The empty results directory. -/
def fs0 : FileState := ⟨none, none, none, none⟩

/-- Transport table with one stray lane referencing the unknown DC GHOST. -/
def c3Transport : List Lane := [⟨"D1", "S1", 1, 1⟩, ⟨"GHOST", "S1", 1, 4⟩]

/-- The persisted output of the one-store/one-lane fixture run. -/
def c5Out : FileState :=
  { optimal_flows := some [⟨"D1", "S1", 5, 1, 5⟩]
    unmet_demand := some [⟨"S1", 0⟩]
    dc_utilization := some [⟨"D1", 10, 5, some 50⟩]
    kpi_summary := some ⟨5, 0, 5, 5, 1, 1, "optimal"⟩ }

/-- Lanes for the slow-lane example: 3.0 days (slow) and 2.0 days (not). -/
def c6Transport : List Lane := [⟨"D1", "S1", 1, 3⟩, ⟨"D1", "S2", 1, 2⟩]

/-- Flows for the slow-lane example: 500 units on the 3.0-day lane. -/
def c6Flows : List FlowRow := [⟨"D1", "S1", 500, 1, 500⟩, ⟨"D1", "S2", 100, 1, 100⟩]

/-! ## Lemmas: Python dict and index-dict semantics -/

theorem pyDict_nil {α : Type} (q : String) : pyDict ([] : List (String × α)) q = none := rfl

theorem pyDict_append {α : Type} (l : List (String × α)) (kv : String × α) (q : String) :
    pyDict (l ++ [kv]) q = if q = kv.1 then some kv.2 else pyDict l q := by
  unfold pyDict
  rw [List.foldl_append]
  rfl

theorem pyDict_eq_some_mem {α : Type} {l : List (String × α)} {q : String} {v : α}
    (h : pyDict l q = some v) : (q, v) ∈ l := by
  induction l using List.reverseRecOn with
  | nil => simp [pyDict_nil] at h
  | append_singleton l kv ih =>
    rw [pyDict_append] at h
    by_cases hq : q = kv.1
    · subst hq
      rw [if_pos rfl] at h
      have hv := Option.some.inj h
      subst hv
      exact List.mem_append_right _ (by simp)
    · rw [if_neg hq] at h
      exact List.mem_append_left _ (ih h)

theorem pyDict_nodup_mem {α : Type} {l : List (String × α)}
    (hn : (l.map Prod.fst).Nodup) {q : String} {v : α} (hm : (q, v) ∈ l) :
    pyDict l q = some v := by
  induction l using List.reverseRecOn with
  | nil => simp at hm
  | append_singleton l kv ih =>
    rw [pyDict_append]
    rcases List.mem_append.1 hm with hl | hr
    · have hq : q ≠ kv.1 := by
        intro hqe
        have hkv : kv.1 ∉ l.map Prod.fst := by
          have := hn
          simp [List.nodup_append] at this
          intro hmem
          exact absurd hmem (by
            rcases this with ⟨_, h2⟩
            simpa using h2)
        exact hkv (hqe ▸ List.mem_map_of_mem Prod.fst hl)
      rw [if_neg hq]
      exact ih (by
        have := hn
        rw [List.map_append] at this
        exact (List.Nodup.of_append_left this)) hl
    · have : (q, v) = kv := by simpa using hr
      subst this
      simp

theorem pyDict_eq_none_iff {α : Type} {l : List (String × α)} {q : String} :
    pyDict l q = none ↔ q ∉ l.map Prod.fst := by
  induction l using List.reverseRecOn with
  | nil => simp [pyDict_nil]
  | append_singleton l kv ih =>
    rw [pyDict_append]
    by_cases hq : q = kv.1
    · simp [hq]
    · simp [hq, ih]

theorem idxD_of_nodup {l : List String} (hnd : l.Nodup) {j : ℕ} {sid : String}
    (h : l.get? j = some sid) : idxD l sid = some j := by
  unfold idxD
  apply pyDict_nodup_mem
  · have hkeys : (l.enum.map (fun p => (p.2, p.1))).map Prod.fst
        = l.enum.map Prod.snd := by
      rw [List.map_map]
      rfl
    rw [hkeys, List.enum_map_snd]
    exact hnd
  · exact List.mem_map_of_mem _ (List.mk_mem_enum_iff_get?.2 h)

theorem idxD_eq_some {l : List String} {sid : String} {j : ℕ}
    (h : idxD l sid = some j) : l.get? j = some sid := by
  have hm := pyDict_eq_some_mem h
  rcases List.mem_map.1 hm with ⟨p, hp, he⟩
  obtain ⟨p1, p2⟩ := p
  obtain ⟨h1, h2⟩ := Prod.mk.injEq .. ▸ he
  subst h1; subst h2
  exact List.mk_mem_enum_iff_get?.1 hp

/-! ## Lemmas: the built constraint rows -/

/-- The demand-balance row of store index `j` dotted with any vector is the
sum of the shipment variables of the lanes into that store plus the store's
own unmet variable. -/
theorem dotRow_A_eq (stores : List Store) (transport : List Lane) (v : ℕ → ℚ)
    {j : ℕ} {sid : String}
    (hnd : (storeIds stores).Nodup)
    (hjs : (storeIds stores).get? j = some sid) :
    dotRow (A_eq_entry stores transport j) v (nVars stores transport)
      = (∑ k in (Finset.range (lanePairs transport).length).filter
          (fun k => ((lanePairs transport).get? k).map Prod.snd = some sid), v k)
        + v ((lanePairs transport).length + j) := by
  have hj : j < (storeIds stores).length := (List.get?_eq_some.1 hjs).1
  unfold dotRow nVars
  rw [Finset.sum_range_add]
  congr 1
  · rw [Finset.sum_filter]
    apply Finset.sum_congr rfl
    intro k hk
    have hk' : k < (lanePairs transport).length := Finset.mem_range.1 hk
    cases hpget : (lanePairs transport).get? k with
    | none =>
      exact absurd (List.get?_eq_none.1 hpget) (by omega)
    | some p =>
      simp only [A_eq_entry, if_pos hk', hpget]
      by_cases hcond : p.2 = sid
      · have hidx : storeIndexD stores p.2 = some j := by
          rw [hcond]
          exact idxD_of_nodup hnd hjs
        rw [if_pos hidx]
        simp [hcond]
      · have hidx : storeIndexD stores p.2 ≠ some j := by
          intro hsome
          have hg := idxD_eq_some hsome
          rw [hjs] at hg
          exact hcond (Option.some.inj hg).symm
        rw [if_neg hidx]
        simp [hcond]
  · have hterm : ∀ i ∈ Finset.range (storeIds stores).length,
        A_eq_entry stores transport j ((lanePairs transport).length + i)
            * v ((lanePairs transport).length + i)
          = if i = j then v ((lanePairs transport).length + i) else 0 := by
      intro i _
      have hnotlt : ¬ ((lanePairs transport).length + i < (lanePairs transport).length) := by
        omega
      simp only [A_eq_entry, if_neg hnotlt]
      by_cases hij : i = j
      · subst hij
        simp
      · have hne : (lanePairs transport).length + i ≠ (lanePairs transport).length + j := by
          omega
        rw [if_neg hne]
        simp [hij]
    rw [Finset.sum_congr rfl hterm, Finset.sum_ite_eq', if_pos (Finset.mem_range.2 hj)]

/-- Claim C1: for every store row of the store table (unique ids), any
solution vector satisfying the demand-balance equalities produced by the
model builder ships into that store, plus its unmet variable, exactly its
weekly demand. -/
theorem C1_store_demand_balance
    (stores : List Store) (transport : List Lane) (v : ℕ → ℚ)
    (hnd : (storeIds stores).Nodup)
    (hfeas : EqFeasible stores transport v)
    (j : ℕ) (s : Store) (hs : stores.get? j = some s) :
    (∑ k in (Finset.range (lanePairs transport).length).filter
        (fun k => ((lanePairs transport).get? k).map Prod.snd = some s.store_id), v k)
      + v ((lanePairs transport).length + j) = s.weekly_demand := by
  have hjs : (storeIds stores).get? j = some s.store_id := by
    unfold storeIds
    rw [List.get?_map, hs]
    rfl
  have hj : j < (storeIds stores).length := (List.get?_eq_some.1 hjs).1
  have hrow := hfeas j hj
  rw [dotRow_A_eq stores transport v hnd hjs] at hrow
  rw [hrow]
  unfold b_eq
  rw [hjs]
  have hmem : (s.store_id, s.weekly_demand)
      ∈ stores.map (fun t => (t.store_id, t.weekly_demand)) :=
    List.mem_map_of_mem _ (List.get?_mem hs)
  have hkeys : ((stores.map (fun t => (t.store_id, t.weekly_demand))).map Prod.fst).Nodup := by
    rw [List.map_map]
    exact hnd
  unfold demandDict
  rw [Option.some_bind, pyDict_nodup_mem hkeys hmem]
  rfl

/-- Witness for C1 on the one-store/one-lane fixture. -/
theorem C1_store_demand_balance_witness :
    EqFeasible wStores wTransport wVec ∧
    (∑ k in (Finset.range (lanePairs wTransport).length).filter
        (fun k => ((lanePairs wTransport).get? k).map Prod.snd = some "S1"), wVec k)
      + wVec ((lanePairs wTransport).length + 0) = 5 := by
  have hfeas : EqFeasible wStores wTransport wVec := by
    unfold EqFeasible
    with_unfolding_all decide
  exact ⟨hfeas, C1_store_demand_balance wStores wTransport wVec
    (by with_unfolding_all decide) hfeas 0 ⟨"S1", 5, "Southeast"⟩ rfl⟩

/-- The capacity row of DC index `i` dotted with any vector is the sum of the
shipment variables of that DC's lanes; unmet columns never contribute. -/
theorem dotRow_A_ub (dcs : List DC) (stores : List Store) (transport : List Lane)
    (v : ℕ → ℚ) {i : ℕ} {did : String}
    (hnd : (dcIds dcs).Nodup)
    (his : (dcIds dcs).get? i = some did) :
    dotRow (A_ub_entry dcs transport i) v (nVars stores transport)
      = ∑ k in (Finset.range (lanePairs transport).length).filter
          (fun k => ((lanePairs transport).get? k).map Prod.fst = some did), v k := by
  unfold dotRow nVars
  rw [Finset.sum_range_add]
  have hzero : ∀ m ∈ Finset.range (storeIds stores).length,
      A_ub_entry dcs transport i ((lanePairs transport).length + m)
        * v ((lanePairs transport).length + m) = 0 := by
    intro m _
    have hnotlt : ¬ ((lanePairs transport).length + m < (lanePairs transport).length) := by
      omega
    simp only [A_ub_entry, if_neg hnotlt]
    ring
  rw [Finset.sum_congr rfl hzero]
  simp only [Finset.sum_const_zero, add_zero]
  rw [Finset.sum_filter]
  apply Finset.sum_congr rfl
  intro k hk
  have hk' : k < (lanePairs transport).length := Finset.mem_range.1 hk
  cases hpget : (lanePairs transport).get? k with
  | none => exact absurd (List.get?_eq_none.1 hpget) (by omega)
  | some p =>
    simp only [A_ub_entry, if_pos hk', hpget]
    by_cases hcond : p.1 = did
    · rw [if_pos (by rw [hcond]; exact idxD_of_nodup hnd his)]
      simp [hcond]
    · rw [if_neg (by
        intro hsome
        have hg := idxD_eq_some hsome
        rw [his] at hg
        exact hcond (Option.some.inj hg).symm)]
      simp [hcond]

/-- Claim C4: for every DC row of the DC table (unique ids), any solution
vector satisfying the capacity inequalities produced by the model builder
ships at most the DC's weekly capacity on that DC's lanes; and with the
nonnegativity bounds, a zero-capacity DC forces all its shipment variables
to zero. -/
theorem C4_dc_capacity_bound
    (stores : List Store) (dcs : List DC) (transport : List Lane) (v : ℕ → ℚ)
    (hnd : (dcIds dcs).Nodup)
    (hfeas : UbFeasible dcs stores transport v)
    (i : ℕ) (d : DC) (hd : dcs.get? i = some d) :
    (∑ k in (Finset.range (lanePairs transport).length).filter
        (fun k => ((lanePairs transport).get? k).map Prod.fst = some d.dc_id), v k)
      ≤ d.weekly_capacity
    ∧ (d.weekly_capacity = 0 → NonnegBounds stores transport v →
        ∀ k, k < (lanePairs transport).length →
          ((lanePairs transport).get? k).map Prod.fst = some d.dc_id → v k = 0) := by
  have his : (dcIds dcs).get? i = some d.dc_id := by
    unfold dcIds
    rw [List.get?_map, hd]
    rfl
  have hi : i < (dcIds dcs).length := (List.get?_eq_some.1 his).1
  have hrow := hfeas i hi
  rw [dotRow_A_ub dcs stores transport v hnd his] at hrow
  have hb : b_ub dcs i = d.weekly_capacity := by
    unfold b_ub
    rw [his]
    show (if dcIndexD dcs d.dc_id = some i
      then (capacityDict dcs d.dc_id).getD 0 else 0) = _
    have hidx : dcIndexD dcs d.dc_id = some i := idxD_of_nodup hnd his
    rw [if_pos hidx]
    have hmem : (d.dc_id, d.weekly_capacity)
        ∈ dcs.map (fun t => (t.dc_id, t.weekly_capacity)) :=
      List.mem_map_of_mem _ (List.get?_mem hd)
    have hkeys : ((dcs.map (fun t => (t.dc_id, t.weekly_capacity))).map Prod.fst).Nodup := by
      rw [List.map_map]
      exact hnd
    unfold capacityDict
    rw [pyDict_nodup_mem hkeys hmem]
    rfl
  rw [hb] at hrow
  refine ⟨hrow, fun hcap hbnd k hk hdc => ?_⟩
  have hkmem : k ∈ (Finset.range (lanePairs transport).length).filter
      (fun k => ((lanePairs transport).get? k).map Prod.fst = some d.dc_id) :=
    Finset.mem_filter.2 ⟨Finset.mem_range.2 hk, hdc⟩
  have hnonneg : ∀ m ∈ (Finset.range (lanePairs transport).length).filter
      (fun k => ((lanePairs transport).get? k).map Prod.fst = some d.dc_id), 0 ≤ v m := by
    intro m hm
    have hm' : m < (lanePairs transport).length :=
      Finset.mem_range.1 (Finset.mem_filter.1 hm).1
    exact hbnd m (by unfold nVars; omega)
  have hle := Finset.single_le_sum hnonneg hkmem
  have hge := hbnd k (by unfold nVars; omega)
  rw [hcap] at hrow
  linarith

/-- Witness for C4 on the one-DC fixture. -/
theorem C4_dc_capacity_bound_witness :
    (∑ k in (Finset.range (lanePairs wTransport).length).filter
        (fun k => ((lanePairs wTransport).get? k).map Prod.fst = some "D1"), wVec k)
      ≤ 10 :=
  (C4_dc_capacity_bound wStores wDcs wTransport wVec (by with_unfolding_all decide)
    (by unfold UbFeasible; with_unfolding_all decide) 0 ⟨"D1", 10⟩ rfl).1

/-- Claim C8: the extractor emits a Flow for a lane exactly when its shipment
value strictly exceeds the 1e-6 tolerance (values at or below it are
discarded), every persisted row carries flow_cost = units * unit_cost, and
one unmet-demand row per store is emitted unconditionally with that store's
unmet value. -/
theorem C8_extractor (transport : List Lane) (stores : List Store) (x u : ℕ → ℚ) :
    (∀ f : FlowEntry, f ∈ extractFlows transport x ↔
      ∃ idx l, transport.get? idx = some l ∧ x idx > TOL
        ∧ f = ⟨l.dc_id, l.store_id, x idx, l.cost_per_unit_usd⟩)
    ∧ (∀ rows, addFlowCost (extractFlows transport x) = Except.ok rows →
        ∀ r ∈ rows, r.flow_cost_usd = r.units_assigned * r.cost_per_unit_usd)
    ∧ (unmetTable stores u).length = stores.length
    ∧ (∀ j s, stores.get? j = some s →
        (unmetTable stores u).get? j = some ⟨s.store_id, u j⟩) := by
  refine ⟨?_, ?_, ?_, ?_⟩
  · intro f
    unfold extractFlows
    rw [List.mem_filterMap]
    constructor
    · rintro ⟨p, hp, hg⟩
      by_cases hq : x p.1 > TOL
      · rw [if_pos hq] at hg
        exact ⟨p.1, p.2, List.mem_enum_iff_get?.1 hp, hq, (Option.some.inj hg).symm⟩
      · rw [if_neg hq] at hg
        exact Option.noConfusion hg
    · rintro ⟨idx, l, hget, hq, hf⟩
      refine ⟨(idx, l), List.mem_enum_iff_get?.2 hget, ?_⟩
      rw [if_pos hq, hf]
  · intro rows hok r hr
    unfold addFlowCost at hok
    by_cases he : (extractFlows transport x).isEmpty
    · rw [if_pos he] at hok
      exact Except.noConfusion hok
    · rw [if_neg he] at hok
      have hrows := Except.ok.inj hok
      subst hrows
      rcases List.mem_map.1 hr with ⟨f, _, hfr⟩
      subst hfr
      rfl
  · unfold unmetTable storeIds
    simp
  · intro j s hs
    unfold unmetTable
    rw [List.get?_map, List.get?_enum]
    unfold storeIds
    rw [List.get?_map, hs]
    rfl

/-- Witness for C8: on the fixture the 5-unit shipment on the one lane is
extracted as a Flow. -/
theorem C8_extractor_witness :
    (⟨"D1", "S1", 5, 1⟩ : FlowEntry) ∈ extractFlows wTransport wVec :=
  ((C8_extractor wTransport wStores wVec (fun j => wVec (1 + j))).1 _).mpr
    ⟨0, ⟨"D1", "S1", 1, 1⟩, rfl, by norm_num [wVec, TOL], rfl⟩

/-- Claim C9: a non-success solver status makes the run raise an error
carrying the solver's status message, and any raised error leaves every
output file of the results directory unchanged — outputs are written only on
full success. -/
theorem C9_solve_failure_fatal (fs : FileState) (stores : List Store)
    (dcs : List DC) (transport : List Lane) (res : SolverResult) :
    (res.success = false →
      runWrite fs stores dcs transport res
        = (fs, some ("LP solve failed: " ++ res.message)))
    ∧ (∀ e, (runWrite fs stores dcs transport res).2 = some e →
        (runWrite fs stores dcs transport res).1 = fs) := by
  constructor
  · intro hfail
    unfold runWrite
    rw [hfail]
    rfl
  · intro e
    unfold runWrite
    cases hs : res.success with
    | false =>
      intro _
      rfl
    | true =>
      simp only [Bool.not_true, Bool.false_eq_true, if_false]
      cases haf : addFlowCost (extractFlows transport res.x) with
      | error msg =>
        intro _
        rfl
      | ok rows =>
        intro hcontra
        exact Option.noConfusion hcontra

/-- Witness for C9: a failing solver run reports the failure and leaves the
empty results directory empty. -/
theorem C9_solve_failure_fatal_witness :
    runWrite fs0 wStores wDcs wTransport ⟨false, "infeasible", fun _ => 0⟩
      = (fs0, some ("LP solve failed: " ++ "infeasible")) :=
  (C9_solve_failure_fatal fs0 wStores wDcs wTransport
    ⟨false, "infeasible", fun _ => 0⟩).1 rfl

/-- Claim C2 (code bug): on the degenerate zero-lane input the LP itself
stays feasible — the all-unmet vector satisfies every constraint and the
bounds — but the run raises the pandas KeyError while assigning the
flow-cost column on the empty flows table, so it errors out instead of
producing the valid all-unmet snapshot, writing nothing. -/
theorem C2_degenerate_input_crash :
    EqFeasible wStores c2Transport c2Vec
    ∧ UbFeasible wDcs wStores c2Transport c2Vec
    ∧ NonnegBounds wStores c2Transport c2Vec
    ∧ runWrite fs0 wStores wDcs c2Transport ⟨true, "ok", c2Vec⟩
        = (fs0, some "KeyError: units_assigned") := by
  refine ⟨?_, ?_, ?_, ?_⟩
  · unfold EqFeasible
    with_unfolding_all decide
  · unfold UbFeasible
    with_unfolding_all decide
  · unfold NonnegBounds
    intro k _
    norm_num [c2Vec]
  · with_unfolding_all decide

/-- Claim C5: on any successful run, the persisted headline KPI equals the
2-decimal rounding of the total cost recomputed independently from the
persisted Flows and UnmetDemand tables, and the transport and penalty KPIs
are the roundings of the two summands — no drift. -/
theorem C5_total_cost_no_drift (fs fs2 : FileState) (stores : List Store)
    (dcs : List DC) (transport : List Lane) (res : SolverResult)
    (hrun : runWrite fs stores dcs transport res = (fs2, none)) :
    ∃ flows unmet kpi,
      fs2.optimal_flows = some flows
      ∧ fs2.unmet_demand = some unmet
      ∧ fs2.kpi_summary = some kpi
      ∧ kpi.total_cost_with_penalty_usd = round2 (recomputedTotal flows unmet)
      ∧ kpi.total_transport_cost_usd = round2 ((flows.map (·.flow_cost_usd)).sum)
      ∧ kpi.unmet_penalty_usd
          = round2 ((unmet.map (fun r => r.unmet_units * UNMET_PENALTY)).sum) := by
  unfold runWrite at hrun
  cases hs : res.success with
  | false =>
    rw [hs] at hrun
    simp only [Bool.not_false, if_true] at hrun
    exact absurd (congrArg Prod.snd hrun) (by simp)
  | true =>
    rw [hs] at hrun
    simp only [Bool.not_true, Bool.false_eq_true, if_false] at hrun
    cases haf : addFlowCost (extractFlows transport res.x) with
    | error msg =>
      rw [haf] at hrun
      exact absurd (congrArg Prod.snd hrun) (by simp)
    | ok rows =>
      rw [haf] at hrun
      have hfs2 : _ = fs2 := congrArg Prod.fst hrun
      refine ⟨rows,
        unmetTable stores (fun j => res.x ((lanePairs transport).length + j)),
        kpiTable stores dcs rows
          (unmetTable stores (fun j => res.x ((lanePairs transport).length + j))),
        ?_, ?_, ?_, ?_, ?_, ?_⟩
      · rw [← hfs2]
      · rw [← hfs2]
      · rw [← hfs2]
      · rfl
      · rfl
      · rfl

/-- Witness for C5: the fixture run succeeds and its KPI satisfies the
recomputation identity. -/
theorem C5_total_cost_no_drift_witness :
    ∃ flows unmet kpi,
      c5Out.optimal_flows = some flows
      ∧ c5Out.unmet_demand = some unmet
      ∧ c5Out.kpi_summary = some kpi
      ∧ kpi.total_cost_with_penalty_usd = round2 (recomputedTotal flows unmet)
      ∧ kpi.total_transport_cost_usd = round2 ((flows.map (·.flow_cost_usd)).sum)
      ∧ kpi.unmet_penalty_usd
          = round2 ((unmet.map (fun r => r.unmet_units * UNMET_PENALTY)).sum) :=
  C5_total_cost_no_drift fs0 c5Out wStores wDcs wTransport ⟨true, "ok", wVec⟩
    (by with_unfolding_all decide)

/-- Claim C7 counterexample: a zero-capacity DC with zero assigned flow does
NOT appear with utilization 0% — the float division 0/0 gives NaN (no
numeric value), refuting the claim's parenthetical at this input. -/
theorem C7_utilization_counterexample :
    ¬ (∀ r ∈ utilTable [⟨"D0", 0⟩] [], r.units_assigned = 0 →
        r.utilization_pct = some 0) := by
  intro h
  have hm : (⟨"D0", 0, 0, none⟩ : UtilRow) ∈ utilTable [⟨"D0", 0⟩] [] := by
    with_unfolding_all decide
  have hv := h _ hm rfl
  exact Option.noConfusion hv

/-- Claim C7 (amended): the utilization table has one row per reference DC,
in table order; each row's assigned units are that DC's summed flows (0 when
the DC is absent from Flows, which is not an error); when the capacity is
nonzero the utilization is units/capacity*100 rounded to 2 decimals — in
particular 0% for a zero-flow DC — but a zero-capacity DC reports NaN
(`none`), not 0%. -/
theorem C7_utilization_amended (dcs : List DC) (flows : List FlowRow) :
    (utilTable dcs flows).length = dcs.length
    ∧ ∀ i d, dcs.get? i = some d →
        ∃ r, (utilTable dcs flows).get? i = some r
          ∧ r.dc_id = d.dc_id
          ∧ r.weekly_capacity = d.weekly_capacity
          ∧ r.units_assigned = ((flows.filter (fun f => f.dc_id == d.dc_id)).map
              (·.units_assigned)).sum
          ∧ (d.weekly_capacity ≠ 0 →
              r.utilization_pct
                = some (round2 (r.units_assigned / d.weekly_capacity * 100)))
          ∧ (d.weekly_capacity ≠ 0 → r.units_assigned = 0 →
              r.utilization_pct = some 0)
          ∧ (d.weekly_capacity = 0 → r.utilization_pct = none) := by
  constructor
  · unfold utilTable
    exact List.length_map ..
  · intro i d hd
    refine ⟨_, by unfold utilTable; rw [List.get?_map, hd]; rfl, rfl, rfl, rfl, ?_, ?_, ?_⟩
    · intro hcap
      show (pdDiv _ d.weekly_capacity).map _ = _
      unfold pdDiv
      rw [if_neg hcap]
      rfl
    · intro hcap hzero
      show (pdDiv _ d.weekly_capacity).map _ = _
      unfold pdDiv
      rw [if_neg hcap]
      have hz : ((flows.filter (fun f => f.dc_id == d.dc_id)).map
          (·.units_assigned)).sum = (0 : ℚ) := hzero
      rw [Option.map_some']
      rw [hz]
      norm_num [round2, roundHalfEven]
    · intro hcap
      show (pdDiv _ d.weekly_capacity).map _ = _
      unfold pdDiv
      rw [if_pos hcap]
      rfl

/-- Witness for C7 (amended) on the fixture: one row per DC, and the
zero-flow DC with capacity 10 reports 0%. -/
theorem C7_utilization_amended_witness :
    ∃ r, (utilTable wDcs []).get? 0 = some r
      ∧ r.dc_id = "D1"
      ∧ r.weekly_capacity = (10 : ℚ)
      ∧ r.units_assigned = (([] : List FlowRow).map (·.units_assigned)).sum
      ∧ ((10 : ℚ) ≠ 0 →
          r.utilization_pct = some (round2 (r.units_assigned / 10 * 100)))
      ∧ ((10 : ℚ) ≠ 0 → r.units_assigned = 0 → r.utilization_pct = some 0)
      ∧ ((10 : ℚ) = 0 → r.utilization_pct = none) :=
  (C7_utilization_amended wDcs []).2 0 ⟨"D1", 10⟩ rfl

theorem idxD_eq_none_iff {l : List String} {sid : String} :
    idxD l sid = none ↔ sid ∉ l := by
  unfold idxD
  rw [pyDict_eq_none_iff]
  have hkeys : (l.enum.map (fun p => (p.2, p.1))).map Prod.fst = l := by
    rw [List.map_map]
    exact List.enum_map_snd l
  rw [hkeys]

theorem firstMissing_eq_none_iff {keys : String → Option ℕ} {ids : List String} :
    firstMissing keys ids = none ↔ ∀ a ∈ ids, (keys a).isSome := by
  induction ids with
  | nil => simp [firstMissing]
  | cons a rest ih =>
    cases hk : keys a with
    | none => simp [firstMissing, hk]
    | some m => simp [firstMissing, hk, ih]

/-- Claim C3 counterexample: a lane naming the unknown DC GHOST still
appears among the model's pairs — it is not excluded before model
construction, and since every pair carries one shipment variable (one per
transport row), the stray lane keeps a variable in the LP. -/
theorem C3_stray_lane_counterexample :
    ("GHOST", "S1") ∈ lanePairs c3Transport
    ∧ "GHOST" ∉ dcIds wDcs
    ∧ (lanePairs c3Transport).length = c3Transport.length := by
  refine ⟨?_, ?_, rfl⟩
  · with_unfolding_all decide
  · with_unfolding_all decide

/-- Claim C3 (amended): stray lanes are not filtered out — every transport
row keeps a shipment variable.  The top-level builder does not crash: a lane
with an unknown store has a zero coefficient in every demand row, one with
an unknown DC a zero coefficient in every capacity row.  The model/ variant
instead raises a KeyError on the first unresolvable id. -/
theorem C3_stray_lane_amended (stores : List Store) (dcs : List DC)
    (transport : List Lane) :
    (lanePairs transport).length = transport.length
    ∧ (∀ k p, (lanePairs transport).get? k = some p →
        (p.2 ∉ storeIds stores → ∀ j, A_eq_entry stores transport j k = 0)
        ∧ (p.1 ∉ dcIds dcs → ∀ i, A_ub_entry dcs transport i k = 0))
    ∧ (∀ l ∈ transport, (l.store_id ∉ storeIds stores ∨ l.dc_id ∉ dcIds dcs) →
        ∃ e, buildStrictCheck stores dcs transport = Except.error e) := by
  refine ⟨by unfold lanePairs; exact List.length_map .., ?_, ?_⟩
  · intro k p hp
    have hk : k < (lanePairs transport).length := (List.get?_eq_some.1 hp).1
    constructor
    · intro hst j
      have hidx : storeIndexD stores p.2 = none := idxD_eq_none_iff.2 (by
        intro hmem
        exact hst (by simpa [storeIds] using hmem))
      simp only [A_eq_entry, if_pos hk, hp, hidx]
      simp
    · intro hdc i
      have hidx : dcIndexD dcs p.1 = none := idxD_eq_none_iff.2 (by
        intro hmem
        exact hdc (by simpa [dcIds] using hmem))
      simp only [A_ub_entry, if_pos hk, hp, hidx]
      simp
  · intro l hl hmiss
    unfold buildStrictCheck
    cases hfm : firstMissing (storeIndexD stores) ((lanePairs transport).map Prod.snd) with
    | some sid => exact ⟨"KeyError: " ++ sid, rfl⟩
    | none =>
      cases hfm2 : firstMissing (dcIndexD dcs) ((lanePairs transport).map Prod.fst) with
      | some did => exact ⟨"KeyError: " ++ did, rfl⟩
      | none =>
        exfalso
        rcases hmiss with hst | hdc
        · have hmem : l.store_id ∈ (lanePairs transport).map Prod.snd := by
            refine List.mem_map.2 ⟨(l.dc_id, l.store_id), ?_, rfl⟩
            exact List.mem_map.2 ⟨l, hl, rfl⟩
          have hsome := firstMissing_eq_none_iff.1 hfm l.store_id hmem
          rw [Option.isSome_iff_exists] at hsome
          rcases hsome with ⟨m, hm⟩
          have := idxD_eq_some (hm : idxD (storeIds stores) l.store_id = some m)
          exact hst (List.get?_mem this)
        · have hmem : l.dc_id ∈ (lanePairs transport).map Prod.fst := by
            refine List.mem_map.2 ⟨(l.dc_id, l.store_id), ?_, rfl⟩
            exact List.mem_map.2 ⟨l, hl, rfl⟩
          have hsome := firstMissing_eq_none_iff.1 hfm2 l.dc_id hmem
          rw [Option.isSome_iff_exists] at hsome
          rcases hsome with ⟨m, hm⟩
          have := idxD_eq_some (hm : idxD (dcIds dcs) l.dc_id = some m)
          exact hdc (List.get?_mem this)

/-- Witness for C3 (amended): on the stray-lane fixture the model/ variant
build fails with a KeyError. -/
theorem C3_stray_lane_amended_witness :
    ∃ e, buildStrictCheck wStores wDcs c3Transport = Except.error e :=
  (C3_stray_lane_amended wStores wDcs c3Transport).2.2 ⟨"GHOST", "S1", 1, 4⟩
    (by with_unfolding_all decide) (Or.inr (by with_unfolding_all decide))

/-- With duplicate-free lane keys, at most one transport row matches a given
(dc, store) pair. -/
theorem filter_nodup_key (transport : List Lane)
    (hnd : (transport.map (fun t => (t.dc_id, t.store_id))).Nodup)
    (d s : String) :
    transport.filter (fun t => t.dc_id == d && t.store_id == s) = []
    ∨ ∃ t, t.dc_id = d ∧ t.store_id = s
        ∧ transport.filter (fun t => t.dc_id == d && t.store_id == s) = [t] := by
  induction transport with
  | nil => exact Or.inl rfl
  | cons a rest ih =>
    rw [List.map_cons, List.nodup_cons] at hnd
    obtain ⟨hna, hnd'⟩ := hnd
    rw [List.filter_cons]
    by_cases ha : a.dc_id = d ∧ a.store_id = s
    · rw [if_pos (by simp [ha.1, ha.2])]
      right
      refine ⟨a, ha.1, ha.2, ?_⟩
      have hfr : rest.filter (fun t => t.dc_id == d && t.store_id == s) = [] := by
        rw [List.filter_eq_nil]
        intro t ht hpt
        have h1 : t.dc_id = d ∧ t.store_id = s := by simpa using hpt
        exact hna (List.mem_map.2 ⟨t, ht, by rw [h1.1, h1.2, ha.1, ha.2]⟩)
      rw [hfr]
    · rw [if_neg (by simpa using ha)]
      exact ih hnd'

/-- With duplicate-free lane keys, the left merge pairs every flow with its
unique lane's transit time (`none` = NaN when no lane matches). -/
theorem flowsServ_eq (flows : List FlowRow) (transport : List Lane)
    (hnd : (transport.map (fun t => (t.dc_id, t.store_id))).Nodup) :
    flowsServ flows transport = flows.map (fun f => (f, laneTime transport f)) := by
  induction flows with
  | nil => rfl
  | cons f rest ih =>
    unfold flowsServ at ih ⊢
    rw [List.flatMap_cons, List.map_cons, ih]
    show (if (transport.filter (fun l => l.dc_id == f.dc_id && l.store_id == f.store_id)).isEmpty
        then [(f, (none : Option ℚ))]
        else (transport.filter (fun l => l.dc_id == f.dc_id && l.store_id == f.store_id)).map
          (fun l => (f, some l.service_time_days)))
        ++ rest.map (fun f => (f, laneTime transport f))
      = (f, laneTime transport f) :: rest.map (fun f => (f, laneTime transport f))
    rcases filter_nodup_key transport hnd f.dc_id f.store_id with hnil | ⟨t, _, _, hone⟩
    · rw [hnil]
      unfold laneTime
      rw [hnil]
      rfl
    · rw [hone]
      unfold laneTime
      rw [hone]
      rfl

/-- Claim C6: with duplicate-free lane keys, the slow-lane detail contains
exactly the realized flows whose lane transit time strictly exceeds 2.0 days
(a lane of exactly 2.0 days is excluded), and the KPI row reports their
count, the sum of their assigned units, and their percentage of total
shipped units with the denominator floored at 1. -/
theorem C6_slow_lanes (flows : List FlowRow) (transport : List Lane)
    (hnd : (transport.map (fun t => (t.dc_id, t.store_id))).Nodup) :
    slowDetail flows transport
      = (flows.filter (fun f =>
          match laneTime transport f with
          | some t => decide (t > 2)
          | none => false)).map (fun f => (f, laneTime transport f))
    ∧ slowKpis flows transport
      = { slow_lanes_count := (slowDetail flows transport).length
          units_on_slow_lanes :=
            ((slowDetail flows transport).map (fun p => p.1.units_assigned)).sum
          pct_units_on_slow_lanes :=
            100 * ((slowDetail flows transport).map (fun p => p.1.units_assigned)).sum
              / max ((flows.map (·.units_assigned)).sum) 1 } := by
  constructor
  · unfold slowDetail
    rw [flowsServ_eq flows transport hnd, List.filter_map]
    congr 1
  · rfl

set_option maxRecDepth 10000 in
/-- Witness for C6: the 500-unit flow on the 3.0-day lane is slow, the
100-unit flow on the 2.0-day lane is not. -/
theorem C6_slow_lanes_witness :
    (slowKpis c6Flows c6Transport).units_on_slow_lanes = 500
    ∧ slowDetail c6Flows c6Transport
      = (c6Flows.filter (fun f =>
          match laneTime c6Transport f with
          | some t => decide (t > 2)
          | none => false)).map (fun f => (f, laneTime c6Transport f)) :=
  ⟨by with_unfolding_all decide,
   (C6_slow_lanes c6Flows c6Transport (by with_unfolding_all decide)).1⟩

/-! ## Lemmas: the scenario mutator -/

theorem multProd_nil (key : String) : multProd [] key = 1 := rfl

theorem multProd_cons (p : String × ℚ) (rest : List (String × ℚ)) (key : String) :
    multProd (p :: rest) key
      = (if p.1 = key then p.2 else 1) * multProd rest key := by
  unfold multProd
  rw [List.filter_cons]
  by_cases h : p.1 = key
  · rw [if_pos (by simp [h]), if_pos h, List.map_cons, List.prod_cons]
  · rw [if_neg (by simp [h]), if_neg h, one_mul]

theorem multProd_not_mem {levers : List (String × ℚ)} {key : String}
    (h : key ∉ levers.map Prod.fst) : multProd levers key = 1 := by
  unfold multProd
  have hfil : levers.filter (fun p => p.1 == key) = [] := by
    rw [List.filter_eq_nil]
    intro p hp hpk
    exact h (List.mem_map.2 ⟨p, hp, by simpa using hpk⟩)
  rw [hfil]
  rfl

theorem multProd_nodup_mem {levers : List (String × ℚ)}
    (hnd : (levers.map Prod.fst).Nodup) {key : String} {m : ℚ}
    (hm : (key, m) ∈ levers) : multProd levers key = m := by
  induction levers with
  | nil => simp at hm
  | cons p rest ih =>
    rw [List.map_cons, List.nodup_cons] at hnd
    rw [multProd_cons]
    rcases List.mem_cons.1 hm with he | hr
    · have hp1 : p.1 = key := by rw [← he]
      have hp2 : p.2 = m := by rw [← he]
      rw [if_pos hp1, hp2, multProd_not_mem (hp1 ▸ hnd.1), mul_one]
    · have hk : p.1 ≠ key := by
        intro he2
        exact hnd.1 (he2 ▸ List.mem_map.2 ⟨(key, m), hr, rfl⟩)
      rw [if_neg hk, one_mul]
      exact ih hnd.2 hr

theorem multProd_square (levers : List (String × ℚ)) (key : String) :
    multProd (levers.map (fun p => (p.1, p.2 * p.2))) key
      = multProd levers key * multProd levers key := by
  induction levers with
  | nil => simp [multProd]
  | cons p rest ih =>
    rw [List.map_cons, multProd_cons, multProd_cons, ih]
    by_cases h : p.1 = key
    · rw [if_pos h, if_pos h]
      ring
    · rw [if_neg h, if_neg h]
      ring

/-- The lever loop multiplies each DC's capacity by the product of the
multipliers of all levers naming it. -/
theorem applyCapacityLevers_eq (levers : List (String × ℚ)) (dcs : List DC) :
    applyCapacityLevers levers dcs
      = dcs.map (fun d =>
          { d with weekly_capacity := d.weekly_capacity * multProd levers d.dc_id }) := by
  induction levers generalizing dcs with
  | nil =>
    unfold applyCapacityLevers
    rw [List.foldl_nil]
    have hid : (fun d : DC =>
        { d with weekly_capacity := d.weekly_capacity * multProd [] d.dc_id })
        = fun d => d := by
      funext d
      rw [multProd_nil, mul_one]
    rw [hid, List.map_id']
  | cons p rest ih =>
    unfold applyCapacityLevers at ih ⊢
    rw [List.foldl_cons, ih, List.map_map]
    apply List.map_congr_left
    intro d _
    show (fun d : DC =>
        { d with weekly_capacity := d.weekly_capacity * multProd rest d.dc_id })
        (if d.dc_id == p.1 then { d with weekly_capacity := d.weekly_capacity * p.2 }
         else d)
      = { d with weekly_capacity := d.weekly_capacity * multProd (p :: rest) d.dc_id }
    rw [multProd_cons]
    by_cases h : d.dc_id = p.1
    · rw [if_pos (by simp [h]), if_pos h.symm]
      show ({ d with weekly_capacity := d.weekly_capacity * p.2 * multProd rest d.dc_id } : DC)
        = { d with weekly_capacity := d.weekly_capacity * (p.2 * multProd rest d.dc_id) }
      rw [mul_assoc]
    · rw [if_neg (by simp [h]), if_neg (fun he => h he.symm), one_mul]

/-- The lever loop multiplies each store's demand by the product of the
multipliers of all levers naming its region. -/
theorem applyDemandLevers_eq (levers : List (String × ℚ)) (stores : List Store) :
    applyDemandLevers levers stores
      = stores.map (fun s =>
          { s with weekly_demand := s.weekly_demand * multProd levers s.region }) := by
  induction levers generalizing stores with
  | nil =>
    unfold applyDemandLevers
    rw [List.foldl_nil]
    have hid : (fun s : Store =>
        { s with weekly_demand := s.weekly_demand * multProd [] s.region })
        = fun s => s := by
      funext s
      rw [multProd_nil, mul_one]
    rw [hid, List.map_id']
  | cons p rest ih =>
    unfold applyDemandLevers at ih ⊢
    rw [List.foldl_cons, ih, List.map_map]
    apply List.map_congr_left
    intro s _
    show (fun s : Store =>
        { s with weekly_demand := s.weekly_demand * multProd rest s.region })
        (if s.region == p.1 then { s with weekly_demand := s.weekly_demand * p.2 }
         else s)
      = { s with weekly_demand := s.weekly_demand * multProd (p :: rest) s.region }
    rw [multProd_cons]
    by_cases h : s.region = p.1
    · rw [if_pos (by simp [h]), if_pos h.symm]
      show ({ s with weekly_demand := s.weekly_demand * p.2 * multProd rest s.region } : Store)
        = { s with weekly_demand := s.weekly_demand * (p.2 * multProd rest s.region) }
      rw [mul_assoc]
    · rw [if_neg (by simp [h]), if_neg (fun he => h he.symm), one_mul]

/-- Claim C10: the scenario mutator is not idempotent — applying the same
levers twice compounds multiplicatively: the double application equals one
application with every multiplier squared; a DC named with multiplier m ends
at m*m times its original capacity, a store in a region named with m at m*m
times its original demand; entities named by no lever are unchanged by every
application. -/
theorem C10_scenario_not_idempotent (cfg : ScenarioCfg) (dcs : List DC)
    (stores : List Store) :
    (applyScenario cfg ((applyScenario cfg dcs stores).1)
        ((applyScenario cfg dcs stores).2)
      = applyScenario (squareCfg cfg) dcs stores)
    ∧ ((cfg.dc_capacity_mult.map Prod.fst).Nodup →
        ∀ dcid m, (dcid, m) ∈ cfg.dc_capacity_mult →
        ∀ j d, dcs.get? j = some d → d.dc_id = dcid →
          ((applyScenario cfg ((applyScenario cfg dcs stores).1)
              ((applyScenario cfg dcs stores).2)).1).get? j
            = some { d with weekly_capacity := d.weekly_capacity * (m * m) })
    ∧ ((cfg.region_demand_mult.map Prod.fst).Nodup →
        ∀ rg m, (rg, m) ∈ cfg.region_demand_mult →
        ∀ j s, stores.get? j = some s → s.region = rg →
          ((applyScenario cfg ((applyScenario cfg dcs stores).1)
              ((applyScenario cfg dcs stores).2)).2).get? j
            = some { s with weekly_demand := s.weekly_demand * (m * m) })
    ∧ (∀ j d, dcs.get? j = some d → d.dc_id ∉ cfg.dc_capacity_mult.map Prod.fst →
        ((applyScenario cfg dcs stores).1).get? j = some d)
    ∧ (∀ j s, stores.get? j = some s → s.region ∉ cfg.region_demand_mult.map Prod.fst →
        ((applyScenario cfg dcs stores).2).get? j = some s) := by
  refine ⟨?_, ?_, ?_, ?_, ?_⟩
  · unfold applyScenario squareCfg
    refine Prod.ext ?_ ?_
    · show applyCapacityLevers cfg.dc_capacity_mult
        (applyCapacityLevers cfg.dc_capacity_mult dcs) = _
      rw [applyCapacityLevers_eq, applyCapacityLevers_eq, List.map_map,
        applyCapacityLevers_eq]
      apply List.map_congr_left
      intro d _
      show ({ d with weekly_capacity := d.weekly_capacity * multProd cfg.dc_capacity_mult d.dc_id * multProd cfg.dc_capacity_mult d.dc_id } : DC) = { d with weekly_capacity := d.weekly_capacity * multProd (cfg.dc_capacity_mult.map (fun p => (p.1, p.2 * p.2))) d.dc_id }
      rw [multProd_square, ← mul_assoc]
    · show applyDemandLevers cfg.region_demand_mult
        (applyDemandLevers cfg.region_demand_mult stores) = _
      rw [applyDemandLevers_eq, applyDemandLevers_eq, List.map_map,
        applyDemandLevers_eq]
      apply List.map_congr_left
      intro s _
      show ({ s with weekly_demand := s.weekly_demand * multProd cfg.region_demand_mult s.region * multProd cfg.region_demand_mult s.region } : Store) = { s with weekly_demand := s.weekly_demand * multProd (cfg.region_demand_mult.map (fun p => (p.1, p.2 * p.2))) s.region }
      rw [multProd_square, ← mul_assoc]
  · intro hnd dcid m hm j d hj hdid
    show (applyCapacityLevers cfg.dc_capacity_mult
        (applyCapacityLevers cfg.dc_capacity_mult dcs)).get? j = _
    rw [applyCapacityLevers_eq, applyCapacityLevers_eq, List.map_map,
      List.get?_map, hj]
    have hmp : multProd cfg.dc_capacity_mult d.dc_id = m := by
      rw [hdid]
      exact multProd_nodup_mem hnd hm
    show some ({ d with weekly_capacity := d.weekly_capacity * multProd cfg.dc_capacity_mult d.dc_id * multProd cfg.dc_capacity_mult d.dc_id } : DC) = _
    rw [hmp, mul_assoc]
  · intro hnd rg m hm j s hj hrg
    show (applyDemandLevers cfg.region_demand_mult
        (applyDemandLevers cfg.region_demand_mult stores)).get? j = _
    rw [applyDemandLevers_eq, applyDemandLevers_eq, List.map_map,
      List.get?_map, hj]
    have hmp : multProd cfg.region_demand_mult s.region = m := by
      rw [hrg]
      exact multProd_nodup_mem hnd hm
    show some ({ s with weekly_demand := s.weekly_demand * multProd cfg.region_demand_mult s.region * multProd cfg.region_demand_mult s.region } : Store) = _
    rw [hmp, mul_assoc]
  · intro j d hj hnot
    show (applyCapacityLevers cfg.dc_capacity_mult dcs).get? j = some d
    rw [applyCapacityLevers_eq, List.get?_map, hj]
    show some ({ d with weekly_capacity := d.weekly_capacity * multProd cfg.dc_capacity_mult d.dc_id } : DC) = some d
    rw [multProd_not_mem hnot, mul_one]
  · intro j s hj hnot
    show (applyDemandLevers cfg.region_demand_mult stores).get? j = some s
    rw [applyDemandLevers_eq, List.get?_map, hj]
    show some ({ s with weekly_demand := s.weekly_demand * multProd cfg.region_demand_mult s.region } : Store) = some s
    rw [multProd_not_mem hnot, mul_one]

/-- Witness for C10: doubling the D1 lever twice leaves D1 at 10*(2*2). -/
theorem C10_scenario_not_idempotent_witness :
    ((applyScenario ⟨[("D1", 2)], [("Southeast", 3)]⟩
        ((applyScenario ⟨[("D1", 2)], [("Southeast", 3)]⟩ wDcs wStores).1)
        ((applyScenario ⟨[("D1", 2)], [("Southeast", 3)]⟩ wDcs wStores).2)).1).get? 0
      = some ⟨"D1", 10 * (2 * 2)⟩ :=
  (C10_scenario_not_idempotent ⟨[("D1", 2)], [("Southeast", 3)]⟩ wDcs wStores).2.1
    (by with_unfolding_all decide) "D1" 2 (by with_unfolding_all decide) 0
    ⟨"D1", 10⟩ rfl rfl
